import Mathlib

/-!
Verification development for the simplebank ledger core.

The repository ships `main.go` (process wiring and the SQL DDL for the
`accounts`, `entries` and `transfers` tables), the configuration loader and
API-layer tests.  The transactional store itself (the transaction executor,
the balance mutator and the transfer orchestrator of spec §4) is not among
the shipped sources, so those components are modelled here from the spec's
contracts and checked against the claims; the schema and the entry point are
embedded directly from `main.go`.
-/

/-- Row of the `accounts` table: id, owner, balance, currency, created_at. -/
structure Account where
  id : Int
  owner : String
  balance : Int
  currency : String
  createdAt : Int
deriving DecidableEq, Repr

/-- Row of the `entries` table: id, amount, account_id, created_at. -/
structure Entry where
  id : Int
  amount : Int
  accountId : Int
  createdAt : Int
deriving DecidableEq, Repr

/-- Row of the `transfers` table: id, from_account_id, to_account_id, amount,
created_at. -/
structure Transfer where
  id : Int
  fromAccountId : Int
  toAccountId : Int
  amount : Int
  createdAt : Int
deriving DecidableEq, Repr

/-- State of the persistent store: the three tables, the serial counters for
the two row-creating tables, the clock used for `created_at`, and the sequence
of account row locks taken so far (`lockLog`): the balance mutator's atomic
update acquires the exclusive row lock of the account it touches, so the
order of balance mutations is the order of lock acquisition. -/
structure DBState where
  accounts : List Account
  entries : List Entry
  transfers : List Transfer
  nextEntryId : Int
  nextTransferId : Int
  now : Int
  lockLog : List Int
deriving DecidableEq, Repr

/-- First account row with the given id, in table order. -/
def lookupAccount (aid : Int) : List Account → Option Account
  | [] => none
  | a :: rest => if a.id = aid then some a else lookupAccount aid rest

/-- Balance of the account with the given id (0 when absent). -/
def balanceOf (aid : Int) (s : DBState) : Int :=
  match lookupAccount aid s.accounts with
  | none => 0
  | some a => a.balance

/-- Modelled from the spec (§4.2, Balance Mutator; the store's
`AddAccountBalance` query is not among the shipped sources): apply a signed
delta to the balance of the row with the given id in a single statement,
returning the updated row and the updated table; `none` when no row has that
id. Only the balance field of the matched row changes. -/
def updateAccountBalance (aid delta : Int) : List Account → Option (Account × List Account)
  | [] => none
  | a :: rest =>
    if a.id = aid then
      some ({ a with balance := a.balance + delta },
            { a with balance := a.balance + delta } :: rest)
    else
      match updateAccountBalance aid delta rest with
      | none => none
      | some (a2, rest2) => some (a2, a :: rest2)

/-- Modelled from the spec (§4.2): `addBalance(accountId, delta)` returns the
account's new state after applying `delta` to its current balance as one
atomic read-and-write; it performs no business-rule validation, failing only
when the account row does not exist.  Acquiring the row lock is recorded in
`lockLog`. -/
def addBalance (aid delta : Int) (s : DBState) : Except String (Account × DBState) :=
  match updateAccountBalance aid delta s.accounts with
  | none => Except.error "account not found"
  | some (a, accs) =>
      Except.ok (a, { s with accounts := accs, lockLog := s.lockLog ++ [aid] })

/-- Modelled from the spec (§4.3 step 1, a Ledger Primitive): insert the
transfer row (source, destination, amount). -/
def createTransfer (fromId toId amount : Int) (s : DBState) :
    Except String (Transfer × DBState) :=
  let t : Transfer :=
    { id := s.nextTransferId, fromAccountId := fromId, toAccountId := toId,
      amount := amount, createdAt := s.now }
  Except.ok (t, { s with transfers := s.transfers ++ [t],
                         nextTransferId := s.nextTransferId + 1 })

/-- Modelled from the spec (§4.3 steps 2-3, a Ledger Primitive): insert an
entry row with a signed amount against an account. -/
def createEntry (aid amount : Int) (s : DBState) :
    Except String (Entry × DBState) :=
  let e : Entry :=
    { id := s.nextEntryId, amount := amount, accountId := aid, createdAt := s.now }
  Except.ok (e, { s with entries := s.entries ++ [e],
                         nextEntryId := s.nextEntryId + 1 })

/-- Error surfaced by the transaction executor: the unit of work's own error,
the unit of work's error combined with a rollback failure (both are kept), or
a commit failure. -/
inductive TxError where
  | workFailed : String → TxError
  | workAndRollbackFailed : String → String → TxError
  | commitFailed : String → TxError
deriving DecidableEq, Repr

/-- Outcome of one atomic execution: the result or error, the state visible
outside the transaction afterwards, and how many times the unit of work was
invoked. -/
structure ExecOutcome (α : Type) where
  result : Except TxError α
  finalState : DBState
  workCalls : Nat

/-- Modelled from the spec (§4.1, Ledger Store; the store's `execTx` is not
among the shipped sources): begin a transaction, invoke the unit of work
exactly once, commit on success and roll back on failure.  `rollbackFailure`
and `commitFailure` model the store reporting a failure of the rollback or
the commit statement itself.  No partial effect is visible outside: on any
non-committed path the outside state is the initial one. -/
def executeAtomically {α : Type} (work : DBState → Except String (α × DBState))
    (rollbackFailure commitFailure : Option String) (s : DBState) : ExecOutcome α :=
  match work s with
  | Except.error e =>
    match rollbackFailure with
    | some rb => { result := Except.error (TxError.workAndRollbackFailed e rb),
                   finalState := s, workCalls := 1 }
    | none => { result := Except.error (TxError.workFailed e),
                finalState := s, workCalls := 1 }
  | Except.ok (a, s2) =>
    match commitFailure with
    | some ce => { result := Except.error (TxError.commitFailed ce),
                   finalState := s, workCalls := 1 }
    | none => { result := Except.ok a, finalState := s2, workCalls := 1 }

/-- Input of the transfer orchestrator (spec §6). -/
structure TransferTxParams where
  fromAccountId : Int
  toAccountId : Int
  amount : Int
deriving DecidableEq, Repr

/-- Output of the transfer orchestrator (spec §6): the created transfer, the
post-transfer state of both accounts and the two created entries. -/
structure TransferTxResult where
  transfer : Transfer
  fromAccount : Account
  toAccount : Account
  fromEntry : Entry
  toEntry : Entry
deriving DecidableEq, Repr

/-- Run one step of the unit of work, with an injectable failure: when
`failAt` names this step, the step fails (modelling a constraint violation,
connection error or lock-wait timeout at that point); otherwise the
underlying operation runs. -/
def step {β : Type} (failAt : Option Nat) (k : Nat)
    (act : DBState → Except String (β × DBState)) (s : DBState) :
    Except String (β × DBState) :=
  if failAt = some k then Except.error "injected failure" else act s

/-- Modelled from the spec (§4.3, Transfer Orchestrator; the store's
`TransferTx` body is not among the shipped sources): the unit of work of a
transfer, in the spec's fixed order: (1) create the transfer row, (2) create
the `-amount` entry against the source, (3) create the `+amount` entry
against the destination, then (4-5) apply the two balance deltas, mutating
the account with the smaller id first: from-then-to when
`fromAccountId < toAccountId`, otherwise to-then-from. -/
def transferWork (p : TransferTxParams) (failAt : Option Nat) (s : DBState) :
    Except String (TransferTxResult × DBState) :=
  match step failAt 1 (createTransfer p.fromAccountId p.toAccountId p.amount) s with
  | Except.error e => Except.error e
  | Except.ok (t, s1) =>
    match step failAt 2 (createEntry p.fromAccountId (-p.amount)) s1 with
    | Except.error e => Except.error e
    | Except.ok (fe, s2) =>
      match step failAt 3 (createEntry p.toAccountId p.amount) s2 with
      | Except.error e => Except.error e
      | Except.ok (te, s3) =>
        if p.fromAccountId < p.toAccountId then
          match step failAt 4 (addBalance p.fromAccountId (-p.amount)) s3 with
          | Except.error e => Except.error e
          | Except.ok (fa, s4) =>
            match step failAt 5 (addBalance p.toAccountId p.amount) s4 with
            | Except.error e => Except.error e
            | Except.ok (ta, s5) =>
              Except.ok ({ transfer := t, fromAccount := fa, toAccount := ta,
                           fromEntry := fe, toEntry := te }, s5)
        else
          match step failAt 4 (addBalance p.toAccountId p.amount) s3 with
          | Except.error e => Except.error e
          | Except.ok (ta, s4) =>
            match step failAt 5 (addBalance p.fromAccountId (-p.amount)) s4 with
            | Except.error e => Except.error e
            | Except.ok (fa, s5) =>
              Except.ok ({ transfer := t, fromAccount := fa, toAccount := ta,
                           fromEntry := fe, toEntry := te }, s5)

/-- Modelled from the spec (§4.3): the transfer operation, its unit of work
executed atomically via the Ledger Store. -/
def transfer (p : TransferTxParams) (failAt : Option Nat)
    (rollbackFailure commitFailure : Option String) (s : DBState) :
    ExecOutcome TransferTxResult :=
  executeAtomically (transferWork p failAt) rollbackFailure commitFailure s

/-- Modelled from the spec (§4.3/§9, "lock smaller id first" as a pure
function): the direction-independent lock-acquisition order of a transfer;
the account with the smaller identity comes first. -/
def lockPair (p : TransferTxParams) : Int × Int :=
  if p.fromAccountId < p.toAccountId then (p.fromAccountId, p.toAccountId)
  else (p.toAccountId, p.fromAccountId)

/-- One in-flight transfer waits for another when the account lock it still
needs (the second of its lock order) is the lock the other transaction
already holds (the first of its lock order). -/
def waitsFor (p q : TransferTxParams) : Prop := (lockPair p).2 = (lockPair q).1

/-- Serialized execution of a list of transfers (no injected failure, no
rollback or commit failure), each starting from the state the previous one
left behind. -/
def runTransfers (ps : List TransferTxParams) (s : DBState) : DBState :=
  match ps with
  | [] => s
  | p :: rest => runTransfers rest (transfer p none none none s).finalState

/-- Net signed flow of money into the given account over a list of
transfers: each transfer contributes its amount when the account is the
destination and minus its amount when it is the source. -/
def netFlow (aid : Int) (ps : List TransferTxParams) : Int :=
  match ps with
  | [] => 0
  | p :: rest =>
    (if p.toAccountId = aid then p.amount else 0)
      - (if p.fromAccountId = aid then p.amount else 0) + netFlow aid rest

/-- The spec §8 deadlock-freedom workload: k pairs of opposite-direction
transfers between accounts `a` and `b`, each of amount `amt`, interleaved. -/
def alternating : Nat → Int → Int → Int → List TransferTxParams
  | 0, _, _, _ => []
  | Nat.succ k, a, b, amt =>
    { fromAccountId := a, toAccountId := b, amount := amt } ::
    { fromAccountId := b, toAccountId := a, amount := amt } ::
    alternating k a b amt

/-- A table of the persisted schema: name, columns in creation order, and the
primary-key column. -/
structure TableDef where
  name : String
  columns : List String
  primaryKey : String
deriving DecidableEq, Repr

/-- A foreign-key constraint of the persisted schema. -/
structure ForeignKey where
  table : String
  column : String
  refTable : String
  refColumn : String
deriving DecidableEq, Repr

/-- A secondary index of the persisted schema. -/
structure IndexDef where
  table : String
  columns : List String
deriving DecidableEq, Repr

/-- The persisted schema: tables, foreign keys and indices. -/
structure Schema where
  tables : List TableDef
  foreignKeys : List ForeignKey
  indices : List IndexDef
deriving DecidableEq, Repr

/-- The schema exactly as the DDL shipped in src/main.go (lines 65-102)
creates it: column order, foreign keys and indices as written there. -/
def sourceSchema : Schema :=
  { tables :=
      [ { name := "accounts",
          columns := ["id", "owner", "balance", "currency", "created_at"],
          primaryKey := "id" },
        { name := "entries",
          columns := ["id", "amount", "account_id", "created_at"],
          primaryKey := "id" },
        { name := "transfers",
          columns := ["id", "from_account_id", "to_account_id", "amount", "created_at"],
          primaryKey := "id" } ],
    foreignKeys :=
      [ { table := "entries", column := "account_id",
          refTable := "accounts", refColumn := "id" },
        { table := "transfers", column := "from_account_id",
          refTable := "accounts", refColumn := "id" },
        { table := "transfers", column := "to_account_id",
          refTable := "accounts", refColumn := "id" } ],
    indices :=
      [ { table := "accounts", columns := ["owner"] },
        { table := "entries", columns := ["account_id"] },
        { table := "transfers", columns := ["from_account_id"] },
        { table := "transfers", columns := ["to_account_id"] },
        { table := "transfers", columns := ["from_account_id", "to_account_id"] } ] }

/-- The schema exactly as the spec's §6 "authoritative, bit-exact" block and
its index list write it, in the spec's order:
accounts(id PK, owner, balance, currency, created_at),
entries(id PK, account_id FK, amount, created_at),
transfers(id PK, from_account_id FK, to_account_id FK, amount, created_at);
indices entries(account_id), transfers(from_account_id),
transfers(to_account_id), transfers(from_account_id, to_account_id),
accounts(owner). -/
def specSchema : Schema :=
  { tables :=
      [ { name := "accounts",
          columns := ["id", "owner", "balance", "currency", "created_at"],
          primaryKey := "id" },
        { name := "entries",
          columns := ["id", "account_id", "amount", "created_at"],
          primaryKey := "id" },
        { name := "transfers",
          columns := ["id", "from_account_id", "to_account_id", "amount", "created_at"],
          primaryKey := "id" } ],
    foreignKeys :=
      [ { table := "entries", column := "account_id",
          refTable := "accounts", refColumn := "id" },
        { table := "transfers", column := "from_account_id",
          refTable := "accounts", refColumn := "id" },
        { table := "transfers", column := "to_account_id",
          refTable := "accounts", refColumn := "id" } ],
    indices :=
      [ { table := "entries", columns := ["account_id"] },
        { table := "transfers", columns := ["from_account_id"] },
        { table := "transfers", columns := ["to_account_id"] },
        { table := "transfers", columns := ["from_account_id", "to_account_id"] },
        { table := "accounts", columns := ["owner"] } ] }

/-- Configuration fields that `main` (src/main.go) reads: the database
driver, the database source and the server address. -/
structure Config where
  driverName : String
  sourceName : String
  serverAddress : String
deriving DecidableEq, Repr

/-- Opaque database connection handle as returned by `sql.Open`. -/
structure Conn where
  handle : String
deriving DecidableEq, Repr

/-- `db.NewStore(conn)`: the store wraps the opened connection. -/
structure Store where
  db : Conn
deriving DecidableEq, Repr

/-- Constructor used by `main`: `store := db.NewStore(conn)`. -/
def NewStore (c : Conn) : Store := { db := c }

/-- The API server as built by `api.New(store)`. -/
structure Server where
  store : Store
deriving DecidableEq, Repr

/-- Constructor used by `main`: `server := api.New(store)`. -/
def apiNew (st : Store) : Server := { store := st }

/-- Environment of the entry point: the outcomes of the three fallible
external calls made by `main`: `utils.LoadConfig`, `sql.Open`, and
`server.Start` (an error, or `none` for success). -/
structure MainEnv where
  loadConfig : Except String Config
  sqlOpen : String → String → Except String Conn
  startServer : Server → String → Option String

/-- Outcome of `main`: a fatal log with its message (`log.Fatal` terminates
the process), or normal operation. -/
inductive MainOutcome where
  | fatal : String → MainOutcome
  | running : MainOutcome
deriving DecidableEq, Repr

/-- Embedding of `main` from src/main.go lines 14-32: load the
configuration, open the database connection, build the store and server,
and start the server; every failure becomes a fatal log with the message
`main` formats there.  The second component records the `server.Start`
invocation, if one happened: the server value and the address passed. -/
def runMain (env : MainEnv) : MainOutcome × Option (Server × String) :=
  match env.loadConfig with
  | Except.error _ => (MainOutcome.fatal "cannot get config", none)
  | Except.ok cfg =>
    match env.sqlOpen cfg.driverName cfg.sourceName with
    | Except.error e => (MainOutcome.fatal ("cannot connect to db: " ++ e), none)
    | Except.ok conn =>
      let store := NewStore conn
      let server := apiNew store
      match env.startServer server cfg.serverAddress with
      | some e => (MainOutcome.fatal ("cannot start server: " ++ e),
                   some (server, cfg.serverAddress))
      | none => (MainOutcome.running, some (server, cfg.serverAddress))

/-- Sample account used by witnesses. -/
def acctA : Account :=
  { id := 1, owner := "alice", balance := 100, currency := "USD", createdAt := 0 }

/-- Sample account used by witnesses. -/
def acctB : Account :=
  { id := 2, owner := "bob", balance := 50, currency := "USD", createdAt := 0 }

/-- Sample store state with two accounts, used by witnesses. -/
def dbAB : DBState :=
  { accounts := [acctA, acctB], entries := [], transfers := [],
    nextEntryId := 1, nextTransferId := 1, now := 0, lockLog := [] }

/-- Sample store state with no accounts, used by witnesses. -/
def dbEmpty : DBState :=
  { accounts := [], entries := [], transfers := [],
    nextEntryId := 1, nextTransferId := 1, now := 0, lockLog := [] }

/-- Sample transfer request used by witnesses: 30 from account 1 to 2. -/
def reqAB : TransferTxParams :=
  { fromAccountId := 1, toAccountId := 2, amount := 30 }

/-- Sample transfer request used by witnesses: 30 from account 2 to 1. -/
def reqBA : TransferTxParams :=
  { fromAccountId := 2, toAccountId := 1, amount := 30 }

/-- Sample entry-point environment whose configuration loading fails, used
by witnesses. -/
def envNoConfig : MainEnv :=
  { loadConfig := Except.error "missing config.env",
    sqlOpen := fun d src => Except.ok { handle := d ++ src },
    startServer := fun _ _ => none }

/-- Sample entry-point environment where everything succeeds, used by
witnesses. -/
def envAllOk : MainEnv :=
  { loadConfig := Except.ok { driverName := "postgres",
                              sourceName := "postgresql://localhost:5432/simple_bank",
                              serverAddress := "0.0.0.0:8080" },
    sqlOpen := fun d src => Except.ok { handle := d ++ src },
    startServer := fun _ _ => none }

/-- A successful step is the underlying operation: the injected failure did
not hit this step. -/
theorem step_ok {β : Type} {failAt : Option Nat} {k : Nat}
    {act : DBState → Except String (β × DBState)} {s : DBState}
    {x : β × DBState} (h : step failAt k act s = Except.ok x) :
    act s = Except.ok x := by
  unfold step at h
  split at h
  · exact absurd h (by simp)
  · exact h

/-- A successful balance update finds the row, adds the delta to its balance
and leaves every other field of that row unchanged; the updated row is the
first row with that id afterwards. -/
theorem updateAccountBalance_lookup_self {aid delta : Int} :
    ∀ {l : List Account} {a2 : Account} {l2 : List Account},
    updateAccountBalance aid delta l = some (a2, l2) →
    lookupAccount aid l2 = some a2 ∧
      ∃ a, lookupAccount aid l = some a ∧ a2 = { a with balance := a.balance + delta } := by
  intro l
  induction l with
  | nil => intro a2 l2 h; simp [updateAccountBalance] at h
  | cons a rest ih =>
    intro a2 l2 h
    by_cases hid : a.id = aid
    · rw [updateAccountBalance, if_pos hid] at h
      obtain ⟨h1, h2⟩ := Prod.mk.injEq .. ▸ Option.some.injEq .. ▸ h
      subst h1
      subst h2
      refine ⟨by simp [lookupAccount, hid], a, by simp [lookupAccount, hid], rfl⟩
    · rw [updateAccountBalance, if_neg hid] at h
      cases hrec : updateAccountBalance aid delta rest with
      | none => rw [hrec] at h; exact absurd h (by simp)
      | some pr =>
        obtain ⟨a3, rest3⟩ := pr
        rw [hrec] at h
        obtain ⟨h1, h2⟩ := Prod.mk.injEq .. ▸ Option.some.injEq .. ▸ h
        subst h1
        subst h2
        obtain ⟨hl, a0, hl0, ha0⟩ := ih hrec
        exact ⟨by simpa [lookupAccount, hid] using hl,
               a0, by simpa [lookupAccount, hid] using hl0, ha0⟩

/-- A balance update leaves the lookup of every other id unchanged. -/
theorem updateAccountBalance_lookup_other {aid delta bid : Int} (hne : bid ≠ aid) :
    ∀ {l : List Account} {a2 : Account} {l2 : List Account},
    updateAccountBalance aid delta l = some (a2, l2) →
    lookupAccount bid l2 = lookupAccount bid l := by
  intro l
  induction l with
  | nil => intro a2 l2 h; simp [updateAccountBalance] at h
  | cons a rest ih =>
    intro a2 l2 h
    by_cases hid : a.id = aid
    · rw [updateAccountBalance, if_pos hid] at h
      obtain ⟨h1, h2⟩ := Prod.mk.injEq .. ▸ Option.some.injEq .. ▸ h
      subst h1
      subst h2
      have hb : a.id ≠ bid := fun hc => hne (hc ▸ hid ▸ rfl)
      simp [lookupAccount, hb]
    · rw [updateAccountBalance, if_neg hid] at h
      cases hrec : updateAccountBalance aid delta rest with
      | none => rw [hrec] at h; exact absurd h (by simp)
      | some pr =>
        obtain ⟨a3, rest3⟩ := pr
        rw [hrec] at h
        obtain ⟨h1, h2⟩ := Prod.mk.injEq .. ▸ Option.some.injEq .. ▸ h
        subst h1
        subst h2
        by_cases hab : a.id = bid
        · simp [lookupAccount, hab]
        · simp only [lookupAccount, if_neg hab]
          exact ih hrec

/-- The balance update succeeds exactly when a row with the id exists: it
performs no validation of the delta or of the resulting balance. -/
theorem updateAccountBalance_isSome {aid delta : Int} :
    ∀ {l : List Account},
    (updateAccountBalance aid delta l).isSome = (lookupAccount aid l).isSome := by
  intro l
  induction l with
  | nil => simp [updateAccountBalance, lookupAccount]
  | cons a rest ih =>
    by_cases hid : a.id = aid
    · simp [updateAccountBalance, lookupAccount, hid]
    · rw [updateAccountBalance, lookupAccount, if_neg hid, if_neg hid]
      cases hrec : updateAccountBalance aid delta rest with
      | none => simpa [hrec] using ih
      | some pr => obtain ⟨a3, rest3⟩ := pr; simpa [hrec] using ih

/-- Anatomy of a successful balance mutation: the returned account is the old
row with only the balance changed by the delta, every other account's lookup
is untouched, no other table or counter changes, and the account's row lock
is appended to the lock log. -/
theorem addBalance_ok {aid delta : Int} {s : DBState} {a : Account} {s2 : DBState}
    (h : addBalance aid delta s = Except.ok (a, s2)) :
    lookupAccount aid s2.accounts = some a ∧
    (∃ old, lookupAccount aid s.accounts = some old ∧
        a = { old with balance := old.balance + delta }) ∧
    (∀ bid, bid ≠ aid → lookupAccount bid s2.accounts = lookupAccount bid s.accounts) ∧
    s2.entries = s.entries ∧ s2.transfers = s.transfers ∧
    s2.nextEntryId = s.nextEntryId ∧ s2.nextTransferId = s.nextTransferId ∧
    s2.now = s.now ∧ s2.lockLog = s.lockLog ++ [aid] := by
  unfold addBalance at h
  cases hupd : updateAccountBalance aid delta s.accounts with
  | none => rw [hupd] at h; exact absurd h (by simp)
  | some pr =>
    obtain ⟨a3, accs⟩ := pr
    rw [hupd] at h
    simp only [Except.ok.injEq, Prod.mk.injEq] at h
    obtain ⟨h1, h2⟩ := h
    subst h1
    subst h2
    obtain ⟨hself, old, hold, holdval⟩ := updateAccountBalance_lookup_self hupd
    refine ⟨hself, ⟨old, hold, holdval⟩, ?_, rfl, rfl, rfl, rfl, rfl, rfl⟩
    intro bid hbid
    exact updateAccountBalance_lookup_other hbid hupd

/-- When the account exists, the balance mutation succeeds (there is no
validation that could reject it). -/
theorem addBalance_exists {aid delta : Int} {s : DBState}
    (h : (lookupAccount aid s.accounts).isSome = true) :
    ∃ a s2, addBalance aid delta s = Except.ok (a, s2) := by
  have hs : (updateAccountBalance aid delta s.accounts).isSome = true := by
    rw [@updateAccountBalance_isSome aid delta s.accounts]
    exact h
  unfold addBalance
  cases hupd : updateAccountBalance aid delta s.accounts with
  | none => rw [hupd] at hs; simp at hs
  | some pr =>
    obtain ⟨a, accs⟩ := pr
    exact ⟨a, _, rfl⟩

/-- Effect of two successive balance mutations on distinct accounts: each
account ends with its balance shifted by its delta, the returned rows are the
first rows with those ids afterwards, no other table changes, other accounts
are untouched, and the two row locks are taken in exactly the order of the
two mutations. -/
theorem addBalance_twice {x y dx dy : Int} {s3 s4 s5 : DBState} {xa ya : Account}
    (hxy : x ≠ y)
    (h4 : addBalance x dx s3 = Except.ok (xa, s4))
    (h5 : addBalance y dy s4 = Except.ok (ya, s5)) :
    lookupAccount x s5.accounts = some xa ∧
    lookupAccount y s5.accounts = some ya ∧
    balanceOf x s5 = balanceOf x s3 + dx ∧
    balanceOf y s5 = balanceOf y s3 + dy ∧
    s5.entries = s3.entries ∧ s5.transfers = s3.transfers ∧
    s5.lockLog = s3.lockLog ++ [x, y] ∧
    (∀ bid, (lookupAccount bid s5.accounts).isSome = (lookupAccount bid s3.accounts).isSome) ∧
    (∀ bid, bid ≠ x → bid ≠ y → lookupAccount bid s5.accounts = lookupAccount bid s3.accounts) := by
  obtain ⟨hx4, ⟨oldx, holdx, hxval⟩, hother4, hent4, htr4, _, _, _, hll4⟩ := addBalance_ok h4
  obtain ⟨hy5, ⟨oldy, holdy, hyval⟩, hother5, hent5, htr5, _, _, _, hll5⟩ := addBalance_ok h5
  have hyx : y ≠ x := fun hc => hxy hc.symm
  have hx5 : lookupAccount x s5.accounts = some xa := by
    rw [hother5 x hxy]; exact hx4
  have holdy3 : lookupAccount y s3.accounts = some oldy := by
    rw [← hother4 y hyx]; exact holdy
  refine ⟨hx5, hy5, ?_, ?_, hent5.trans hent4, htr5.trans htr4, ?_, ?_, ?_⟩
  · unfold balanceOf
    rw [hx5, holdx, hxval]
  · unfold balanceOf
    rw [hy5, holdy3, hyval]
  · rw [hll5, hll4, List.append_assoc]
    rfl
  · intro bid
    by_cases hbx : bid = x
    · subst hbx
      rw [hx5, holdx]
      rfl
    · by_cases hby : bid = y
      · subst hby
        rw [hy5, holdy3]
        rfl
      · rw [hother5 bid hby, hother4 bid hbx]
  · intro bid hbx hby
    rw [hother5 bid hby, hother4 bid hbx]

/-- Anatomy of a successful transfer unit of work: exactly one transfer row
and exactly two entry rows are appended and returned, with the spec's
amounts and accounts; both balances move by the transfer amount; the result
carries the post-transfer rows of both accounts; the two account row locks
are taken smaller-id first; and no other account is touched. -/
theorem transferWork_ok {p : TransferTxParams} {failAt : Option Nat} {s : DBState}
    {r : TransferTxResult} {sf : DBState}
    (hne : p.fromAccountId ≠ p.toAccountId)
    (h : transferWork p failAt s = Except.ok (r, sf)) :
    sf.transfers = s.transfers ++ [r.transfer] ∧
    sf.entries = s.entries ++ [r.fromEntry, r.toEntry] ∧
    r.transfer.fromAccountId = p.fromAccountId ∧
    r.transfer.toAccountId = p.toAccountId ∧
    r.transfer.amount = p.amount ∧
    r.fromEntry.accountId = p.fromAccountId ∧
    r.fromEntry.amount = -p.amount ∧
    r.toEntry.accountId = p.toAccountId ∧
    r.toEntry.amount = p.amount ∧
    lookupAccount p.fromAccountId sf.accounts = some r.fromAccount ∧
    lookupAccount p.toAccountId sf.accounts = some r.toAccount ∧
    balanceOf p.fromAccountId sf = balanceOf p.fromAccountId s - p.amount ∧
    balanceOf p.toAccountId sf = balanceOf p.toAccountId s + p.amount ∧
    sf.lockLog = s.lockLog ++
      (if p.fromAccountId < p.toAccountId then [p.fromAccountId, p.toAccountId]
       else [p.toAccountId, p.fromAccountId]) ∧
    (∀ bid, (lookupAccount bid sf.accounts).isSome = (lookupAccount bid s.accounts).isSome) ∧
    (∀ bid, bid ≠ p.fromAccountId → bid ≠ p.toAccountId →
       lookupAccount bid sf.accounts = lookupAccount bid s.accounts) := by
  unfold transferWork at h
  cases h1 : step failAt 1 (createTransfer p.fromAccountId p.toAccountId p.amount) s with
  | error e =>
    rw [h1] at h
    exact absurd h (by simp)
  | ok x1 =>
  obtain ⟨t, s1⟩ := x1
  rw [h1] at h
  simp only at h
  have e1 := step_ok h1
  simp only [createTransfer, Except.ok.injEq, Prod.mk.injEq] at e1
  obtain ⟨ht, hs1⟩ := e1
  cases h2 : step failAt 2 (createEntry p.fromAccountId (-p.amount)) s1 with
  | error e =>
    rw [h2] at h
    exact absurd h (by simp)
  | ok x2 =>
  obtain ⟨fe, s2⟩ := x2
  rw [h2] at h
  simp only at h
  have e2 := step_ok h2
  simp only [createEntry, Except.ok.injEq, Prod.mk.injEq] at e2
  obtain ⟨hfe, hs2⟩ := e2
  cases h3 : step failAt 3 (createEntry p.toAccountId p.amount) s2 with
  | error e =>
    rw [h3] at h
    exact absurd h (by simp)
  | ok x3 =>
  obtain ⟨te, s3⟩ := x3
  rw [h3] at h
  simp only at h
  have e3 := step_ok h3
  simp only [createEntry, Except.ok.injEq, Prod.mk.injEq] at e3
  obtain ⟨hte, hs3⟩ := e3
  have htf : t.fromAccountId = p.fromAccountId := by rw [← ht]
  have htt : t.toAccountId = p.toAccountId := by rw [← ht]
  have hta : t.amount = p.amount := by rw [← ht]
  have hfea : fe.accountId = p.fromAccountId := by rw [← hfe]
  have hfeam : fe.amount = -p.amount := by rw [← hfe]
  have htea : te.accountId = p.toAccountId := by rw [← hte]
  have hteam : te.amount = p.amount := by rw [← hte]
  have h1acc : s1.accounts = s.accounts := by rw [← hs1]
  have h1ent : s1.entries = s.entries := by rw [← hs1]
  have h1tr : s1.transfers = s.transfers ++ [t] := by rw [← hs1, ht]
  have h1lock : s1.lockLog = s.lockLog := by rw [← hs1]
  have h2acc : s2.accounts = s1.accounts := by rw [← hs2]
  have h2ent : s2.entries = s1.entries ++ [fe] := by rw [← hs2, hfe]
  have h2tr : s2.transfers = s1.transfers := by rw [← hs2]
  have h2lock : s2.lockLog = s1.lockLog := by rw [← hs2]
  have h3acc : s3.accounts = s.accounts := by
    rw [← hs3]
    show s2.accounts = s.accounts
    rw [h2acc, h1acc]
  have h3ent : s3.entries = s.entries ++ [fe, te] := by
    rw [← hs3, hte]
    show s2.entries ++ [te] = s.entries ++ [fe, te]
    rw [h2ent, h1ent]
    simp
  have h3tr : s3.transfers = s.transfers ++ [t] := by
    rw [← hs3]
    show s2.transfers = s.transfers ++ [t]
    rw [h2tr, h1tr]
  have h3lock : s3.lockLog = s.lockLog := by
    rw [← hs3]
    show s2.lockLog = s.lockLog
    rw [h2lock, h1lock]
  have h3balF : balanceOf p.fromAccountId s3 = balanceOf p.fromAccountId s := by
    unfold balanceOf
    rw [h3acc]
  have h3balT : balanceOf p.toAccountId s3 = balanceOf p.toAccountId s := by
    unfold balanceOf
    rw [h3acc]
  by_cases hlt : p.fromAccountId < p.toAccountId
  · rw [if_pos hlt] at h
    cases h4 : step failAt 4 (addBalance p.fromAccountId (-p.amount)) s3 with
    | error e =>
      rw [h4] at h
      exact absurd h (by simp)
    | ok x4 =>
    obtain ⟨fa, s4⟩ := x4
    rw [h4] at h
    simp only at h
    have e4 := step_ok h4
    cases h5 : step failAt 5 (addBalance p.toAccountId p.amount) s4 with
    | error e =>
      rw [h5] at h
      exact absurd h (by simp)
    | ok x5 =>
    obtain ⟨ta, s5⟩ := x5
    rw [h5] at h
    simp only [Except.ok.injEq, Prod.mk.injEq] at h
    obtain ⟨hr, hsf⟩ := h
    subst hsf
    subst hr
    have e5 := step_ok h5
    obtain ⟨T1, T2, T3, T4, T5, T6, T7, T8, T9⟩ := addBalance_twice hne e4 e5
    refine ⟨?_, ?_, htf, htt, hta, hfea, hfeam, htea, hteam, T1, T2, ?_, ?_, ?_, ?_, ?_⟩
    · rw [T6, h3tr]
    · rw [T5, h3ent]
    · rw [T3, h3balF]
      omega
    · rw [T4, h3balT]
    · rw [if_pos hlt, T7, h3lock]
    · intro bid
      rw [T8 bid, h3acc]
    · intro bid hbf hbt
      rw [T9 bid hbf hbt, h3acc]
  · rw [if_neg hlt] at h
    cases h4 : step failAt 4 (addBalance p.toAccountId p.amount) s3 with
    | error e =>
      rw [h4] at h
      exact absurd h (by simp)
    | ok x4 =>
    obtain ⟨ta, s4⟩ := x4
    rw [h4] at h
    simp only at h
    have e4 := step_ok h4
    cases h5 : step failAt 5 (addBalance p.fromAccountId (-p.amount)) s4 with
    | error e =>
      rw [h5] at h
      exact absurd h (by simp)
    | ok x5 =>
    obtain ⟨fa, s5⟩ := x5
    rw [h5] at h
    simp only [Except.ok.injEq, Prod.mk.injEq] at h
    obtain ⟨hr, hsf⟩ := h
    subst hsf
    subst hr
    have e5 := step_ok h5
    obtain ⟨T1, T2, T3, T4, T5, T6, T7, T8, T9⟩ := addBalance_twice hne.symm e4 e5
    refine ⟨?_, ?_, htf, htt, hta, hfea, hfeam, htea, hteam, T2, T1, ?_, ?_, ?_, ?_, ?_⟩
    · rw [T6, h3tr]
    · rw [T5, h3ent]
    · rw [T4, h3balF]
      omega
    · rw [T3, h3balT]
    · rw [if_neg hlt, T7, h3lock]
    · intro bid
      rw [T8 bid, h3acc]
    · intro bid hbf hbt
      rw [T9 bid hbt hbf, h3acc]

/-- On any error outcome of a transfer attempt, the state visible outside is
exactly the initial state: rollback (or a failed commit) leaves nothing. -/
theorem transfer_result_error {p : TransferTxParams} {failAt : Option Nat}
    {rb ce : Option String} {s : DBState} {e : TxError}
    (h : (transfer p failAt rb ce s).result = Except.error e) :
    (transfer p failAt rb ce s).finalState = s := by
  unfold transfer executeAtomically at h ⊢
  cases hw : transferWork p failAt s with
  | error e2 =>
    cases rb <;> rfl
  | ok pr =>
    obtain ⟨a, s2⟩ := pr
    rw [hw] at h
    cases ce with
    | none => simp at h
    | some cee => rfl

/-- A transfer attempt returns a result only when the commit succeeded, and
that result is the one its unit of work produced for the final state. -/
theorem transfer_result_ok {p : TransferTxParams} {failAt : Option Nat}
    {rb ce : Option String} {s : DBState} {r : TransferTxResult}
    (h : (transfer p failAt rb ce s).result = Except.ok r) :
    ce = none ∧
    transferWork p failAt s = Except.ok (r, (transfer p failAt rb ce s).finalState) := by
  unfold transfer executeAtomically at h ⊢
  cases hw : transferWork p failAt s with
  | error e2 =>
    rw [hw] at h
    cases rb <;> simp at h
  | ok pr =>
    obtain ⟨a, s2⟩ := pr
    rw [hw] at h
    cases ce with
    | none =>
      simp only at h
      simp only [Except.ok.injEq] at h
      subst h
      exact ⟨rfl, rfl⟩
    | some cee => simp at h

/-- A successful unit of work run under a failure-free executor commits: the
transfer attempt returns the work's result and final state. -/
theorem transfer_of_work_ok {p : TransferTxParams} {failAt : Option Nat}
    {s : DBState} {r : TransferTxResult} {sf : DBState}
    (h : transferWork p failAt s = Except.ok (r, sf)) :
    (transfer p failAt none none s).result = Except.ok r ∧
    (transfer p failAt none none s).finalState = sf := by
  unfold transfer executeAtomically
  rw [h]
  exact ⟨rfl, rfl⟩

/-- With no injected failure, a step is just its underlying operation. -/
theorem step_none {β : Type} (k : Nat)
    (act : DBState → Except String (β × DBState)) (s : DBState) :
    step none k act s = act s := by
  simp [step]

/-- A failed balance mutation means the account row does not exist. -/
theorem addBalance_error {aid delta : Int} {st : DBState} {e : String}
    (h : addBalance aid delta st = Except.error e) :
    (lookupAccount aid st.accounts).isSome = false := by
  unfold addBalance at h
  cases hupd : updateAccountBalance aid delta st.accounts with
  | some pr =>
    obtain ⟨a, accs⟩ := pr
    rw [hupd] at h
    simp at h
  | none =>
    have hu := @updateAccountBalance_isSome aid delta st.accounts
    rw [hupd] at hu
    simpa using hu.symm

/-- When both accounts exist, the failure-free transfer unit of work cannot
fail: nothing else in it can go wrong. -/
theorem transferWork_no_error {p : TransferTxParams} {s : DBState} {e : String}
    (hf : (lookupAccount p.fromAccountId s.accounts).isSome = true)
    (ht : (lookupAccount p.toAccountId s.accounts).isSome = true)
    (h : transferWork p none s = Except.error e) : False := by
  unfold transferWork at h
  simp only [step_none, createTransfer, createEntry] at h
  split at h
  · -- from-account lock first
    rename_i hlt
    split at h
    · rename_i e4 heq4
      have h4f := addBalance_error heq4
      have h4f2 : (lookupAccount p.fromAccountId s.accounts).isSome = false := h4f
      exact Bool.noConfusion (hf.symm.trans h4f2)
    · rename_i fa s4 heq4
      split at h
      · rename_i e5 heq5
        have h5f := addBalance_error heq5
        obtain ⟨_, _, hother4, _, _, _, _, _, _⟩ := addBalance_ok heq4
        have hnef : p.toAccountId ≠ p.fromAccountId := (Int.ne_of_lt hlt).symm
        have hts4 : lookupAccount p.toAccountId s4.accounts
            = lookupAccount p.toAccountId s.accounts := hother4 _ hnef
        rw [hts4] at h5f
        exact Bool.noConfusion (ht.symm.trans h5f)
      · simp at h
  · -- to-account lock first
    split at h
    · rename_i e4 heq4
      have h4f := addBalance_error heq4
      have h4f2 : (lookupAccount p.toAccountId s.accounts).isSome = false := h4f
      exact Bool.noConfusion (ht.symm.trans h4f2)
    · rename_i ta s4 heq4
      split at h
      · rename_i e5 heq5
        have h5f := addBalance_error heq5
        obtain ⟨hself4, _, hother4, _, _, _, _, _, _⟩ := addBalance_ok heq4
        by_cases heq : p.fromAccountId = p.toAccountId
        · rw [heq] at h5f
          rw [hself4] at h5f
          exact Bool.noConfusion h5f
        · have hfs4 : lookupAccount p.fromAccountId s4.accounts
              = lookupAccount p.fromAccountId s.accounts := hother4 _ heq
          rw [hfs4] at h5f
          exact Bool.noConfusion (hf.symm.trans h5f)
      · simp at h

/-- When both accounts exist, the failure-free transfer unit of work
succeeds. -/
theorem transferWork_success {p : TransferTxParams} {s : DBState}
    (hf : (lookupAccount p.fromAccountId s.accounts).isSome = true)
    (ht : (lookupAccount p.toAccountId s.accounts).isSome = true) :
    ∃ r sf, transferWork p none s = Except.ok (r, sf) := by
  cases hres : transferWork p none s with
  | error e => exact absurd hres (fun hh => transferWork_no_error hf ht hh)
  | ok pr =>
    obtain ⟨r, sf⟩ := pr
    exact ⟨r, sf, rfl⟩

/-- For a transfer between two distinct accounts, the first lock of the lock
order is strictly smaller than the second. -/
theorem lockPair_lt {p : TransferTxParams} (hne : p.fromAccountId ≠ p.toAccountId) :
    (lockPair p).1 < (lockPair p).2 := by
  unfold lockPair
  split
  · rename_i hlt
    show p.fromAccountId < p.toAccountId
    exact hlt
  · rename_i hlt
    show p.toAccountId < p.fromAccountId
    omega

/-- Along a waits-for chain of transfers between distinct accounts, the
first lock of the lock order strictly increases: whoever a transaction
waits on holds a strictly larger first lock. -/
theorem waitsFor_chain_lt {x : TransferTxParams} :
    ∀ {l : List TransferTxParams}, List.Chain waitsFor x l →
    (∀ q ∈ x :: l, q.fromAccountId ≠ q.toAccountId) →
    ∀ z ∈ l, (lockPair x).1 < (lockPair z).1 := by
  intro l
  induction l generalizing x with
  | nil =>
    intro _ _ z hz
    simp at hz
  | cons y ys ih =>
    intro hch hne z hz
    cases hch with
    | cons hxy hch2 =>
      have hxy2 : (lockPair x).2 = (lockPair y).1 := hxy
      have hxlt : (lockPair x).1 < (lockPair y).1 := by
        have hlt := lockPair_lt (hne x (by simp))
        rw [hxy2] at hlt
        exact hlt
      rcases List.mem_cons.mp hz with hz1 | hz1
      · subst hz1
        exact hxlt
      · have hne2 : ∀ q ∈ y :: ys, q.fromAccountId ≠ q.toAccountId :=
          fun q hq => hne q (List.mem_cons_of_mem _ hq)
        exact hxlt.trans (ih hch2 hne2 z hz1)

/-- No waits-for cycle can form among transfers between distinct accounts:
blocking chains cannot return to their starting transaction. -/
theorem waitsFor_no_cycle {p : TransferTxParams} {qs : List TransferTxParams}
    (hne : ∀ q ∈ p :: qs, q.fromAccountId ≠ q.toAccountId) :
    ¬ List.Chain waitsFor p (qs ++ [p]) := by
  intro hch
  have hmem : p ∈ qs ++ [p] := by simp
  have hne2 : ∀ q ∈ p :: (qs ++ [p]), q.fromAccountId ≠ q.toAccountId := by
    intro q hq
    rcases List.mem_cons.mp hq with h1 | h1
    · rw [h1]
      exact hne p (by simp)
    · rcases List.mem_append.mp h1 with h2 | h2
      · exact hne q (List.mem_cons_of_mem _ h2)
      · simp at h2
        rw [h2]
        exact hne p (by simp)
  exact absurd (waitsFor_chain_lt hch hne2 p hmem) (lt_irrefl _)

/-- Unfolding equation: serialized execution over a cons. -/
theorem runTransfers_cons (q : TransferTxParams) (rest : List TransferTxParams) (s : DBState) :
    runTransfers (q :: rest) s = runTransfers rest (transfer q none none none s).finalState := rfl

/-- Unfolding equation: net flow over a cons. -/
theorem netFlow_cons (aid : Int) (q : TransferTxParams) (rest : List TransferTxParams) :
    netFlow aid (q :: rest) =
      (if q.toAccountId = aid then q.amount else 0)
        - (if q.fromAccountId = aid then q.amount else 0) + netFlow aid rest := rfl

/-- Unfolding equation: net flow over the empty list. -/
theorem netFlow_nil (aid : Int) : netFlow aid [] = 0 := rfl

/-- Each pair of the alternating workload cancels: its net flow into any
account is zero. -/
theorem netFlow_alternating (k : Nat) (a b amt : Int) (aid : Int) :
    netFlow aid (alternating k a b amt) = 0 := by
  induction k with
  | zero => rfl
  | succ n ih =>
    simp only [alternating, netFlow_cons]
    rw [ih]
    ring

/-- The alternating workload of k pairs has 2k transfers. -/
theorem alternating_length (k : Nat) (a b amt : Int) :
    (alternating k a b amt).length = 2 * k := by
  induction k with
  | zero => rfl
  | succ n ih =>
    simp only [alternating, List.length_cons, ih]
    omega

/-- Every transfer of the alternating workload is between the two accounts. -/
theorem alternating_mem (k : Nat) (a b amt : Int) :
    ∀ q ∈ alternating k a b amt,
      (q.fromAccountId = a ∧ q.toAccountId = b) ∨
      (q.fromAccountId = b ∧ q.toAccountId = a) := by
  induction k with
  | zero =>
    intro q hq
    simp [alternating] at hq
  | succ n ih =>
    intro q hq
    simp only [alternating, List.mem_cons] at hq
    rcases hq with h | h | h
    · subst h
      left
      exact ⟨rfl, rfl⟩
    · subst h
      right
      exact ⟨rfl, rfl⟩
    · exact ih q h

/-- Serialized execution of any list of transfers between two existing
distinct accounts: every transfer commits, each account's final balance is
its initial balance plus its net flow, and exactly two entries and one
transfer row are appended per transfer. -/
theorem runTransfers_netFlow {A B : Int} (hAB : A ≠ B) :
    ∀ (ps : List TransferTxParams) (s : DBState),
    (∀ q ∈ ps, (q.fromAccountId = A ∧ q.toAccountId = B) ∨
               (q.fromAccountId = B ∧ q.toAccountId = A)) →
    (lookupAccount A s.accounts).isSome = true →
    (lookupAccount B s.accounts).isSome = true →
    balanceOf A (runTransfers ps s) = balanceOf A s + netFlow A ps ∧
    balanceOf B (runTransfers ps s) = balanceOf B s + netFlow B ps ∧
    (runTransfers ps s).entries.length = s.entries.length + 2 * ps.length ∧
    (runTransfers ps s).transfers.length = s.transfers.length + ps.length := by
  intro ps
  induction ps with
  | nil =>
    intro s _ _ _
    simp [runTransfers, netFlow]
  | cons q rest ih =>
    intro s hmem hA hB
    have hq := hmem q (by simp)
    have hqf : (lookupAccount q.fromAccountId s.accounts).isSome = true := by
      rcases hq with ⟨h1, _⟩ | ⟨h1, _⟩ <;> rw [h1]
      · exact hA
      · exact hB
    have hqt : (lookupAccount q.toAccountId s.accounts).isSome = true := by
      rcases hq with ⟨_, h2⟩ | ⟨_, h2⟩ <;> rw [h2]
      · exact hB
      · exact hA
    have hqne : q.fromAccountId ≠ q.toAccountId := by
      rcases hq with ⟨h1, h2⟩ | ⟨h1, h2⟩ <;> rw [h1, h2]
      · exact hAB
      · exact hAB.symm
    obtain ⟨r, sf, hwork⟩ := transferWork_success hqf hqt
    obtain ⟨hres, hfin⟩ := transfer_of_work_ok hwork
    obtain ⟨Wtr, Went, _, _, _, _, _, _, _, _, _, WbalF, WbalT, _, Wsome, _⟩ :=
      transferWork_ok hqne hwork
    have hrun : runTransfers (q :: rest) s = runTransfers rest sf := by
      rw [runTransfers_cons, hfin]
    have hA2 : (lookupAccount A sf.accounts).isSome = true := by
      rw [Wsome A]
      exact hA
    have hB2 : (lookupAccount B sf.accounts).isSome = true := by
      rw [Wsome B]
      exact hB
    have hmem2 : ∀ q2 ∈ rest,
        (q2.fromAccountId = A ∧ q2.toAccountId = B) ∨
        (q2.fromAccountId = B ∧ q2.toAccountId = A) :=
      fun q2 hq2 => hmem q2 (List.mem_cons_of_mem _ hq2)
    obtain ⟨ihA, ihB, ihE, ihT⟩ := ih sf hmem2 hA2 hB2
    rw [hrun, netFlow_cons, netFlow_cons]
    have hentlen : sf.entries.length = s.entries.length + 2 := by
      rw [Went]
      simp
    have htrlen : sf.transfers.length = s.transfers.length + 1 := by
      rw [Wtr]
      simp
    refine ⟨?_, ?_, ?_, ?_⟩
    · rw [ihA]
      rcases hq with ⟨h1, h2⟩ | ⟨h1, h2⟩
      · rw [h1] at WbalF
        rw [WbalF, h1, h2, if_neg (Ne.symm hAB), if_pos rfl]
        omega
      · rw [h2] at WbalT
        rw [WbalT, h1, h2, if_pos rfl, if_neg (Ne.symm hAB)]
        omega
    · rw [ihB]
      rcases hq with ⟨h1, h2⟩ | ⟨h1, h2⟩
      · rw [h2] at WbalT
        rw [WbalT, h1, h2, if_pos rfl, if_neg hAB]
        omega
      · rw [h1] at WbalF
        rw [WbalF, h1, h2, if_neg hAB, if_pos rfl]
        omega
    · rw [ihE, hentlen, List.length_cons]
      omega
    · rw [ihT, htrlen, List.length_cons]
      omega

/-- Claim C1: for every transfer execution in which any step fails, the
whole unit of work is aborted and no persistent effect survives; after
completion of any transfer attempt, either all of the transfer row, the two
entries, and the two balance updates exist, or none of them do. -/
theorem C1_transfer_atomicity (p : TransferTxParams) (failAt : Option Nat)
    (rb ce : Option String) (s : DBState)
    (hne : p.fromAccountId ≠ p.toAccountId) :
    (∀ e, (transfer p failAt rb ce s).result = Except.error e →
        (transfer p failAt rb ce s).finalState = s) ∧
    (∀ r, (transfer p failAt rb ce s).result = Except.ok r →
        (transfer p failAt rb ce s).finalState.transfers = s.transfers ++ [r.transfer] ∧
        (transfer p failAt rb ce s).finalState.entries
          = s.entries ++ [r.fromEntry, r.toEntry] ∧
        balanceOf p.fromAccountId (transfer p failAt rb ce s).finalState
          = balanceOf p.fromAccountId s - p.amount ∧
        balanceOf p.toAccountId (transfer p failAt rb ce s).finalState
          = balanceOf p.toAccountId s + p.amount) := by
  constructor
  · intro e he
    exact transfer_result_error he
  · intro r hr
    obtain ⟨hce, hw⟩ := transfer_result_ok hr
    obtain ⟨W1, W2, _, _, _, _, _, _, _, _, _, W12, W13, _, _, _⟩ := transferWork_ok hne hw
    exact ⟨W1, W2, W12, W13⟩

/-- Witness for C1: a failure injected at the first balance update rolls the
state back to exactly the initial one. -/
theorem C1_transfer_atomicity_witness :
    reqAB.fromAccountId ≠ reqAB.toAccountId ∧
    (transfer reqAB (some 4) none none dbAB).finalState = dbAB :=
  ⟨by decide,
   (C1_transfer_atomicity reqAB (some 4) none none dbAB (by decide)).1
     (TxError.workFailed "injected failure") rfl⟩

/-- Claim C2: the two balance mutations are applied in the order determined
solely by account identity: from-then-to when the source id is smaller,
otherwise to-then-from, independent of transfer direction. -/
theorem C2_lock_order (p : TransferTxParams) (failAt : Option Nat)
    (rb ce : Option String) (s : DBState) (r : TransferTxResult)
    (hne : p.fromAccountId ≠ p.toAccountId)
    (hok : (transfer p failAt rb ce s).result = Except.ok r) :
    (transfer p failAt rb ce s).finalState.lockLog =
      s.lockLog ++
        (if p.fromAccountId < p.toAccountId then [p.fromAccountId, p.toAccountId]
         else [p.toAccountId, p.fromAccountId]) := by
  obtain ⟨hce, hw⟩ := transfer_result_ok hok
  obtain ⟨_, _, _, _, _, _, _, _, _, _, _, _, _, W14, _, _⟩ := transferWork_ok hne hw
  exact W14

/-- Witness for C2: a transfer from account 2 to account 1 still locks
account 1 (the smaller id) first. -/
theorem C2_lock_order_witness :
    reqBA.fromAccountId ≠ reqBA.toAccountId ∧
    (transfer reqBA none none none dbAB).finalState.lockLog =
      dbAB.lockLog ++
        (if reqBA.fromAccountId < reqBA.toAccountId
         then [reqBA.fromAccountId, reqBA.toAccountId]
         else [reqBA.toAccountId, reqBA.fromAccountId]) :=
  ⟨by decide,
   C2_lock_order reqBA none none none dbAB
     { transfer := { id := 1, fromAccountId := 2, toAccountId := 1, amount := 30,
                     createdAt := 0 },
       fromAccount := { id := 2, owner := "bob", balance := 20, currency := "USD",
                        createdAt := 0 },
       toAccount := { id := 1, owner := "alice", balance := 130, currency := "USD",
                      createdAt := 0 },
       fromEntry := { id := 1, amount := -30, accountId := 2, createdAt := 0 },
       toEntry := { id := 2, amount := 30, accountId := 1, createdAt := 0 } }
     (by decide) rfl⟩

/-- Claim C3: every successfully completed transfer of amount X creates
exactly two entries in the same unit of work, the from entry of amount -X
against the source and the to entry of amount +X against the destination,
and both appear in the returned result together with the created transfer
and the post-transfer state of both accounts. -/
theorem C3_two_entries (p : TransferTxParams) (failAt : Option Nat)
    (rb ce : Option String) (s : DBState) (r : TransferTxResult)
    (hne : p.fromAccountId ≠ p.toAccountId)
    (hok : (transfer p failAt rb ce s).result = Except.ok r) :
    (transfer p failAt rb ce s).finalState.entries
      = s.entries ++ [r.fromEntry, r.toEntry] ∧
    r.fromEntry.accountId = p.fromAccountId ∧
    r.fromEntry.amount = -p.amount ∧
    r.toEntry.accountId = p.toAccountId ∧
    r.toEntry.amount = p.amount ∧
    (transfer p failAt rb ce s).finalState.transfers = s.transfers ++ [r.transfer] ∧
    r.transfer.fromAccountId = p.fromAccountId ∧
    r.transfer.toAccountId = p.toAccountId ∧
    r.transfer.amount = p.amount ∧
    lookupAccount p.fromAccountId (transfer p failAt rb ce s).finalState.accounts
      = some r.fromAccount ∧
    lookupAccount p.toAccountId (transfer p failAt rb ce s).finalState.accounts
      = some r.toAccount := by
  obtain ⟨hce, hw⟩ := transfer_result_ok hok
  obtain ⟨W1, W2, W3, W4, W5, W6, W7, W8, W9, W10, W11, _, _, _, _, _⟩ :=
    transferWork_ok hne hw
  exact ⟨W2, W6, W7, W8, W9, W1, W3, W4, W5, W10, W11⟩

/-- Witness for C3: the concrete 30-unit transfer from account 1 to account 2
creates the two entries with amounts -30 and +30. -/
theorem C3_two_entries_witness :
    reqAB.fromAccountId ≠ reqAB.toAccountId ∧
    (transfer reqAB none none none dbAB).finalState.entries
      = dbAB.entries ++
        [{ id := 1, amount := -30, accountId := 1, createdAt := 0 },
         { id := 2, amount := 30, accountId := 2, createdAt := 0 }] :=
  ⟨by decide,
   (C3_two_entries reqAB none none none dbAB
     { transfer := { id := 1, fromAccountId := 1, toAccountId := 2, amount := 30,
                     createdAt := 0 },
       fromAccount := { id := 1, owner := "alice", balance := 70, currency := "USD",
                        createdAt := 0 },
       toAccount := { id := 2, owner := "bob", balance := 80, currency := "USD",
                      createdAt := 0 },
       fromEntry := { id := 1, amount := -30, accountId := 1, createdAt := 0 },
       toEntry := { id := 2, amount := 30, accountId := 2, createdAt := 0 } }
     (by decide) rfl).1⟩

/-- Claim C4: for every completed transfer between two distinct accounts the
sum of the two balances is conserved: the source decreases by exactly the
amount and the destination increases by exactly the amount. -/
theorem C4_conservation (p : TransferTxParams) (failAt : Option Nat)
    (rb ce : Option String) (s : DBState) (r : TransferTxResult)
    (hne : p.fromAccountId ≠ p.toAccountId)
    (hok : (transfer p failAt rb ce s).result = Except.ok r) :
    balanceOf p.fromAccountId (transfer p failAt rb ce s).finalState
      + balanceOf p.toAccountId (transfer p failAt rb ce s).finalState
      = balanceOf p.fromAccountId s + balanceOf p.toAccountId s ∧
    balanceOf p.fromAccountId (transfer p failAt rb ce s).finalState
      = balanceOf p.fromAccountId s - p.amount ∧
    balanceOf p.toAccountId (transfer p failAt rb ce s).finalState
      = balanceOf p.toAccountId s + p.amount := by
  obtain ⟨hce, hw⟩ := transfer_result_ok hok
  obtain ⟨_, _, _, _, _, _, _, _, _, _, _, W12, W13, _, _, _⟩ := transferWork_ok hne hw
  refine ⟨?_, W12, W13⟩
  rw [W12, W13]
  omega

/-- Witness for C4: the concrete 30-unit transfer conserves the 150-unit
total of the two accounts. -/
theorem C4_conservation_witness :
    reqAB.fromAccountId ≠ reqAB.toAccountId ∧
    balanceOf reqAB.fromAccountId (transfer reqAB none none none dbAB).finalState
      + balanceOf reqAB.toAccountId (transfer reqAB none none none dbAB).finalState
      = balanceOf reqAB.fromAccountId dbAB + balanceOf reqAB.toAccountId dbAB :=
  ⟨by decide,
   (C4_conservation reqAB none none none dbAB
     { transfer := { id := 1, fromAccountId := 1, toAccountId := 2, amount := 30,
                     createdAt := 0 },
       fromAccount := { id := 1, owner := "alice", balance := 70, currency := "USD",
                        createdAt := 0 },
       toAccount := { id := 2, owner := "bob", balance := 80, currency := "USD",
                      createdAt := 0 },
       fromEntry := { id := 1, amount := -30, accountId := 1, createdAt := 0 },
       toEntry := { id := 2, amount := 30, accountId := 2, createdAt := 0 } }
     (by decide) rfl).1⟩

/-- Claim C5: the atomic executor invokes the unit of work exactly once; a
failing unit of work is rolled back and its error returned, combined with
the rollback error when rollback itself also fails (neither dropped); a
succeeding unit of work commits, and a commit failure is returned. -/
theorem C5_executeAtomically_contract {α : Type}
    (work : DBState → Except String (α × DBState))
    (rb ce : Option String) (s : DBState) :
    (executeAtomically work rb ce s).workCalls = 1 ∧
    (∀ e, work s = Except.error e → rb = none →
      (executeAtomically work rb ce s).result = Except.error (TxError.workFailed e) ∧
      (executeAtomically work rb ce s).finalState = s) ∧
    (∀ e rbe, work s = Except.error e → rb = some rbe →
      (executeAtomically work rb ce s).result
        = Except.error (TxError.workAndRollbackFailed e rbe) ∧
      (executeAtomically work rb ce s).finalState = s) ∧
    (∀ a s2 cee, work s = Except.ok (a, s2) → ce = some cee →
      (executeAtomically work rb ce s).result = Except.error (TxError.commitFailed cee)) ∧
    (∀ a s2, work s = Except.ok (a, s2) → ce = none →
      (executeAtomically work rb ce s).result = Except.ok a ∧
      (executeAtomically work rb ce s).finalState = s2) := by
  refine ⟨?_, ?_, ?_, ?_, ?_⟩
  · unfold executeAtomically
    cases hw : work s with
    | error e => cases rb <;> rfl
    | ok pr =>
      obtain ⟨a, s2⟩ := pr
      cases ce <;> rfl
  · intro e hw hrb
    subst hrb
    simp [executeAtomically, hw]
  · intro e rbe hw hrb
    subst hrb
    simp [executeAtomically, hw]
  · intro a s2 cee hw hce
    subst hce
    simp [executeAtomically, hw]
  · intro a s2 hw hce
    subst hce
    simp [executeAtomically, hw]

/-- Witness for C5: with a failing unit of work and a failing rollback, both
errors are surfaced together; the unit of work was invoked exactly once. -/
theorem C5_executeAtomically_contract_witness :
    (executeAtomically (fun _ => (Except.error "boom" : Except String (Unit × DBState)))
        (some "rollback failed") none dbEmpty).result
      = Except.error (TxError.workAndRollbackFailed "boom" "rollback failed") ∧
    (executeAtomically (fun _ => (Except.error "boom" : Except String (Unit × DBState)))
        (some "rollback failed") none dbEmpty).workCalls = 1 :=
  ⟨((C5_executeAtomically_contract (fun _ => Except.error "boom")
      (some "rollback failed") none dbEmpty).2.2.1 "boom" "rollback failed" rfl rfl).1,
   (C5_executeAtomically_contract (fun _ => Except.error "boom")
      (some "rollback failed") none dbEmpty).1⟩

/-- Claim C6: for every account id and every signed delta, the balance
mutator returns the account's state with the balance shifted by the delta,
leaves every other field and every other account unchanged, and performs no
business-rule validation: it succeeds exactly when the account exists,
whatever the delta. -/
theorem C6_addBalance_contract (aid delta : Int) (s : DBState) :
    (∀ old, lookupAccount aid s.accounts = some old →
      ∃ a s2, addBalance aid delta s = Except.ok (a, s2) ∧
        a.balance = old.balance + delta ∧
        a.id = old.id ∧ a.owner = old.owner ∧ a.currency = old.currency ∧
        a.createdAt = old.createdAt ∧
        lookupAccount aid s2.accounts = some a ∧
        (∀ bid, bid ≠ aid → lookupAccount bid s2.accounts = lookupAccount bid s.accounts) ∧
        s2.entries = s.entries ∧ s2.transfers = s.transfers) ∧
    (lookupAccount aid s.accounts = none →
      addBalance aid delta s = Except.error "account not found") ∧
    ((∃ a s2, addBalance aid delta s = Except.ok (a, s2)) ↔
      (lookupAccount aid s.accounts).isSome = true) := by
  refine ⟨?_, ?_, ?_⟩
  · intro old hold
    obtain ⟨a, s2, hab⟩ := @addBalance_exists aid delta s (by rw [hold]; rfl)
    obtain ⟨hself, ⟨old2, hold2, hval⟩, hother, hent, htr, _, _, _, _⟩ := addBalance_ok hab
    rw [hold] at hold2
    have hoo : old = old2 := by injection hold2
    subst hoo
    refine ⟨a, s2, hab, ?_, ?_, ?_, ?_, ?_, hself, hother, hent, htr⟩
    · rw [hval]
    · rw [hval]
    · rw [hval]
    · rw [hval]
    · rw [hval]
  · intro hnone
    have hfalse : (updateAccountBalance aid delta s.accounts).isSome = false := by
      rw [@updateAccountBalance_isSome aid delta s.accounts, hnone]
      rfl
    unfold addBalance
    cases hupd : updateAccountBalance aid delta s.accounts with
    | none => rfl
    | some pr =>
      rw [hupd] at hfalse
      exact absurd hfalse (by simp)
  · constructor
    · intro hex
      obtain ⟨a, s2, hab⟩ := hex
      obtain ⟨_, ⟨old, hold, _⟩, _, _, _, _, _, _, _⟩ := addBalance_ok hab
      rw [hold]
      rfl
    · intro hsome
      exact @addBalance_exists aid delta s hsome

/-- Witness for C6: debiting 999 from account 1 (balance 100) succeeds with
the balance going to -99: no insufficient-funds check is performed, and the
other fields keep their values. -/
theorem C6_addBalance_contract_witness :
    ∃ a s2, addBalance 1 (-999) dbAB = Except.ok (a, s2) ∧
      a.balance = acctA.balance + -999 ∧
      a.id = acctA.id ∧ a.owner = acctA.owner ∧ a.currency = acctA.currency ∧
      a.createdAt = acctA.createdAt ∧
      lookupAccount 1 s2.accounts = some a ∧
      (∀ bid, bid ≠ 1 → lookupAccount bid s2.accounts = lookupAccount bid dbAB.accounts) ∧
      s2.entries = dbAB.entries ∧ s2.transfers = dbAB.transfers :=
  (C6_addBalance_contract 1 (-999) dbAB).1 acctA rfl

/-- Claim C8: every committed transfer row has a strictly positive amount,
given the orchestrator's preconditions (positive amount, distinct accounts)
and an initial table satisfying the invariant; the recorded amount of a
successful transfer is exactly the requested one. -/
theorem C8_positive_amounts (p : TransferTxParams) (failAt : Option Nat)
    (rb ce : Option String) (s : DBState)
    (hpos : 0 < p.amount) (hne : p.fromAccountId ≠ p.toAccountId)
    (hinv : ∀ t ∈ s.transfers, 0 < t.amount) :
    (∀ t ∈ (transfer p failAt rb ce s).finalState.transfers, 0 < t.amount) ∧
    (∀ r, (transfer p failAt rb ce s).result = Except.ok r →
      r.transfer.amount = p.amount ∧ 0 < r.transfer.amount) := by
  constructor
  · intro t ht
    cases hres : (transfer p failAt rb ce s).result with
    | error e =>
      rw [transfer_result_error hres] at ht
      exact hinv t ht
    | ok r =>
      obtain ⟨hce, hw⟩ := transfer_result_ok hres
      obtain ⟨W1, _, _, _, W5, _, _, _, _, _, _, _, _, _, _, _⟩ := transferWork_ok hne hw
      rw [W1] at ht
      rcases List.mem_append.mp ht with h1 | h1
      · exact hinv t h1
      · simp only [List.mem_singleton] at h1
        subst h1
        rw [W5]
        exact hpos
  · intro r hr
    obtain ⟨hce, hw⟩ := transfer_result_ok hr
    obtain ⟨_, _, _, _, W5, _, _, _, _, _, _, _, _, _, _, _⟩ := transferWork_ok hne hw
    constructor
    · exact W5
    · rw [W5]
      exact hpos

/-- Witness for C8: after the concrete 30-unit transfer, every transfer row
in the table has a strictly positive amount. -/
theorem C8_positive_amounts_witness :
    0 < reqAB.amount ∧ reqAB.fromAccountId ≠ reqAB.toAccountId ∧
    ∀ t ∈ (transfer reqAB none none none dbAB).finalState.transfers, 0 < t.amount :=
  ⟨by decide, by decide,
   (C8_positive_amounts reqAB none none none dbAB (by decide) (by decide)
      (by intro t ht; simp [dbAB] at ht)).1⟩

/-- Counterexample to claim C7 as stated: the persisted schema does not
match the spec's bit-exact schema; in the `entries` table the DDL orders the
columns (id, amount, account_id, created_at) while the spec writes
(id, account_id, amount, created_at). -/
theorem C7_schema_counterexample :
    sourceSchema ≠ specSchema ∧
    sourceSchema.tables.map TableDef.columns ≠ specSchema.tables.map TableDef.columns := by
  decide

/-- Claim C7 (amended): the persisted schema has the spec's three tables
with the same primary keys and the same column sets (the `entries` column
order differs: amount before account_id), the same foreign keys, and
exactly the five required indices. -/
theorem C7_schema_amended :
    sourceSchema.tables.map TableDef.name = ["accounts", "entries", "transfers"] ∧
    specSchema.tables.map TableDef.name = ["accounts", "entries", "transfers"] ∧
    (∀ ts ∈ sourceSchema.tables, ∀ tp ∈ specSchema.tables,
       ts.name = tp.name →
         List.Perm ts.columns tp.columns ∧ ts.primaryKey = tp.primaryKey) ∧
    sourceSchema.foreignKeys = specSchema.foreignKeys ∧
    List.Perm sourceSchema.indices specSchema.indices ∧
    sourceSchema.indices.length = 5 := by
  decide

/-- Claim C9: no deadlock can arise from account-lock contention, because
every transaction acquires account locks in the same global order, so
waits-for chains cannot cycle; and the alternating opposite-direction
workload of N = 2k transfers between two accounts completes fully, with
net-zero balance change, exactly 2N entries and N transfer rows. -/
theorem C9_deadlock_freedom :
    (∀ (p : TransferTxParams) (qs : List TransferTxParams),
       (∀ q ∈ p :: qs, q.fromAccountId ≠ q.toAccountId) →
       ¬ List.Chain waitsFor p (qs ++ [p])) ∧
    (∀ (k : Nat) (a b amt : Int) (s : DBState),
       a ≠ b →
       (lookupAccount a s.accounts).isSome = true →
       (lookupAccount b s.accounts).isSome = true →
       balanceOf a (runTransfers (alternating k a b amt) s) = balanceOf a s ∧
       balanceOf b (runTransfers (alternating k a b amt) s) = balanceOf b s ∧
       (runTransfers (alternating k a b amt) s).entries.length
         = s.entries.length + 2 * (2 * k) ∧
       (runTransfers (alternating k a b amt) s).transfers.length
         = s.transfers.length + 2 * k) := by
  constructor
  · intro p qs hne
    exact waitsFor_no_cycle hne
  · intro k a b amt s hab hA hB
    obtain ⟨hA2, hB2, hE, hT⟩ :=
      runTransfers_netFlow hab (alternating k a b amt) s (alternating_mem k a b amt) hA hB
    rw [netFlow_alternating] at hA2
    rw [netFlow_alternating] at hB2
    rw [alternating_length] at hE
    rw [alternating_length] at hT
    refine ⟨by omega, by omega, by omega, by omega⟩

/-- Witness for C9: a one-transfer waits-for cycle is impossible, and one
alternating pair of 10-unit transfers between accounts 1 and 2 leaves both
balances unchanged and creates 4 entries and 2 transfer rows. -/
theorem C9_deadlock_freedom_witness :
    (¬ List.Chain waitsFor reqAB ([] ++ [reqAB])) ∧
    balanceOf 1 (runTransfers (alternating 1 1 2 10) dbAB) = balanceOf 1 dbAB ∧
    balanceOf 2 (runTransfers (alternating 1 1 2 10) dbAB) = balanceOf 2 dbAB ∧
    (runTransfers (alternating 1 1 2 10) dbAB).entries.length
      = dbAB.entries.length + 2 * (2 * 1) ∧
    (runTransfers (alternating 1 1 2 10) dbAB).transfers.length
      = dbAB.transfers.length + 2 * 1 :=
  ⟨C9_deadlock_freedom.1 reqAB [] (by decide),
   (C9_deadlock_freedom.2 1 1 2 10 dbAB (by decide) (by decide) (by decide)).1,
   (C9_deadlock_freedom.2 1 1 2 10 dbAB (by decide) (by decide) (by decide)).2.1,
   (C9_deadlock_freedom.2 1 1 2 10 dbAB (by decide) (by decide) (by decide)).2.2.1,
   (C9_deadlock_freedom.2 1 1 2 10 dbAB (by decide) (by decide) (by decide)).2.2.2⟩

/-- Claim C10: the entry point never starts the server on a partially
initialized configuration: a failed configuration load, database open or
server start each terminate with the fatal message `main` formats, and the
server is only ever started with the store built from the successfully
opened connection and the loaded server address. -/
theorem C10_main_initialization (env : MainEnv) :
    (∀ e, env.loadConfig = Except.error e →
        runMain env = (MainOutcome.fatal "cannot get config", none)) ∧
    (∀ cfg e, env.loadConfig = Except.ok cfg →
        env.sqlOpen cfg.driverName cfg.sourceName = Except.error e →
        runMain env = (MainOutcome.fatal ("cannot connect to db: " ++ e), none)) ∧
    (∀ cfg conn e, env.loadConfig = Except.ok cfg →
        env.sqlOpen cfg.driverName cfg.sourceName = Except.ok conn →
        env.startServer (apiNew (NewStore conn)) cfg.serverAddress = some e →
        (runMain env).1 = MainOutcome.fatal ("cannot start server: " ++ e)) ∧
    ((runMain env).2 = none ∨
      ∃ cfg conn, env.loadConfig = Except.ok cfg ∧
        env.sqlOpen cfg.driverName cfg.sourceName = Except.ok conn ∧
        (runMain env).2 = some (apiNew (NewStore conn), cfg.serverAddress)) := by
  refine ⟨?_, ?_, ?_, ?_⟩
  · intro e he
    simp [runMain, he]
  · intro cfg e h1 h2
    simp [runMain, h1, h2]
  · intro cfg conn e h1 h2 h3
    simp [runMain, h1, h2, NewStore, apiNew] at h3 ⊢
    rw [h3]
  · cases hl : env.loadConfig with
    | error e =>
      left
      simp [runMain, hl]
    | ok cfg =>
      cases ho : env.sqlOpen cfg.driverName cfg.sourceName with
      | error e =>
        left
        simp [runMain, hl, ho]
      | ok conn =>
        right
        refine ⟨cfg, conn, rfl, ho, ?_⟩
        cases hs : env.startServer (apiNew (NewStore conn)) cfg.serverAddress with
        | none =>
          simp only [apiNew, NewStore] at hs
          simp [runMain, hl, ho, hs, NewStore, apiNew]
        | some e =>
          simp only [apiNew, NewStore] at hs
          simp [runMain, hl, ho, hs, NewStore, apiNew]

/-- Witness for C10: an environment whose configuration loading fails ends
in the fatal config message without any server start; an environment where
everything succeeds starts the server exactly with the store built from the
opened connection and the loaded address. -/
theorem C10_main_initialization_witness :
    runMain envNoConfig = (MainOutcome.fatal "cannot get config", none) ∧
    ((runMain envAllOk).2 = none ∨
      ∃ cfg conn, envAllOk.loadConfig = Except.ok cfg ∧
        envAllOk.sqlOpen cfg.driverName cfg.sourceName = Except.ok conn ∧
        (runMain envAllOk).2 = some (apiNew (NewStore conn), cfg.serverAddress)) :=
  ⟨(C10_main_initialization envNoConfig).1 "missing config.env" rfl,
   (C10_main_initialization envAllOk).2.2.2⟩
